import Mathlib

/-!
Shallow embedding of the indexer core (lib/utils.ts and two event-producer
handlers): bigmap-diff lookup, pattern matching, event-identity derivation,
and the paginated fetch loops, together with proofs of the specified
properties.

Conventions of the embedding:
- TypeScript `X | null` and optional/possibly-undefined values become
  `Option`; a field that may be absent from the record itself (the `in`
  operator distinguishes this) is also an `Option` field.
- The tzkt HTTP page request of `getTransactions` / `getOriginations` is
  modelled by an oracle `src : Nat -> List _` giving the records of each
  page (the filters, status and select arguments only shape that oracle);
  the loop additionally returns the number of page requests it issued.
- The external 128-bit digest `metrohash128` is a parameter
  `metrohash128 : String -> String`; the digest input string is built by
  `eventIdPreimage` exactly as the template literal in the source does.
- Fallible code returns `Except String _`; throwing is `Except.error`.
-/

/-- Action tag of a bigmap diff, as used by the handlers. -/
inductive BigmapDiffAction where
  | add_key
  | update_key
  | remove_key
  deriving DecidableEq, Repr

/-- Token reference found under `content.value.token` of an objkt ask diff. -/
structure TokenRef where
  address : String
  token_id : String
  deriving DecidableEq, Repr

/-- Fields of `content.value` that the embedded handlers read; a field the
concrete diff does not carry is `none` (lodash `get` then yields undefined). -/
structure DiffValue where
  token : Option TokenRef := none
  creator : Option String := none
  seller : Option String := none
  nft_contract_address : Option String := none
  nft_id : Option String := none
  deriving DecidableEq, Repr

/-- Content of a bigmap diff: the key and the value tree. -/
structure DiffContent where
  key : String
  value : DiffValue := {}
  deriving DecidableEq, Repr

/-- One bigmap diff as delivered by tzkt. -/
structure BigmapDiff where
  bigmap : Int
  path : String
  action : BigmapDiffAction
  content : DiffContent
  deriving DecidableEq, Repr

/-- Parameter payload of a transaction (`parameter.entrypoint`,
`parameter.value`); the handlers under proof read `value` as a scalar. -/
structure Parameter where
  entrypoint : String
  value : Option String := none
  deriving DecidableEq, Repr

/-- An account reference such as `target` or `sender`. -/
structure AccountRef where
  address : String
  deriving DecidableEq, Repr

/-- A tzkt transaction record, with the fields of the `select` list of
`getTransactions`. `hash`, `counter` and `nonce` are `Option` at the record
level because `createEventId` tests their presence with the `in` operator;
`nonce` is additionally nullable when present. -/
structure Transaction where
  id : Int
  level : Int := 0
  timestamp : String := ""
  block : String := ""
  hash : Option String := none
  counter : Option Int := none
  nonce : Option (Option Int) := none
  sender : Option AccountRef := none
  target : Option AccountRef := none
  amount : Int := 0
  parameter : Option Parameter := none
  status : String := "applied"
  hasInternals : Bool := false
  initiator : Option AccountRef := none
  storage : Option String := none
  diffs : Option (List BigmapDiff) := none
  deriving DecidableEq, Repr

/-- A tzkt origination record, with the fields of the `select` list of
`getOriginations`. -/
structure Origination where
  id : Int
  nonce : Option (Option Int) := none
  level : Int := 0
  timestamp : String := ""
  block : String := ""
  counter : Option Int := none
  hash : Option String := none
  initiator : Option AccountRef := none
  sender : Option AccountRef := none
  status : String := "applied"
  storage : Option String := none
  originatedContract : Option String := none
  deriving DecidableEq, Repr

/-- The `action` argument of `isMatchingDiff`: a single action or an array
of actions (`BigmapDiffAction | Array<BigmapDiffAction>`). -/
inductive ActionArg where
  | one (a : BigmapDiffAction)
  | many (l : List BigmapDiffAction)
  deriving DecidableEq, Repr

/-- Normalisation `Array.isArray(action) ? action : [action]`. -/
def ActionArg.toList : ActionArg → List BigmapDiffAction
  | ActionArg.one a => [a]
  | ActionArg.many l => l

/-- Embedding of `isMatchingDiff`. The key test mirrors the source
`key ? diff.content.key === key : true`: a missing key, and also an
empty-string key (falsy in JavaScript), skip the key comparison. -/
def isMatchingDiff (diff : BigmapDiff) (bigmapId : Option Int) (path : String)
    (action : ActionArg) (key : Option String) : Bool :=
  let actions := action.toList
  (match bigmapId with
    | none => true
    | some b => decide (diff.bigmap = b)) &&
  decide (diff.path = path) &&
  decide (diff.action ∈ actions) &&
  (match key with
    | none => true
    | some k => if k = "" then true else decide (diff.content.key = k))

/-- Embedding of `findDiff`: first diff satisfying `isMatchingDiff`. -/
def findDiff (diffs : List BigmapDiff) (bigmapId : Option Int) (path : String)
    (action : ActionArg) (key : Option String) : Option BigmapDiff :=
  diffs.find? (fun diff => isMatchingDiff diff bigmapId path action key)

/-- Embedding of `filterDiffs`: all diffs satisfying `isMatchingDiff`. -/
def filterDiffs (diffs : List BigmapDiff) (bigmapId : Option Int) (path : String)
    (action : ActionArg) (key : Option String) : List BigmapDiff :=
  diffs.filter (fun diff => isMatchingDiff diff bigmapId path action key)

/-- The attribute names of a `Pattern`. -/
inductive PatternKey where
  | entrypoint
  | target_address
  deriving DecidableEq, Repr

/-- A `Pattern`: each supported attribute optionally maps to an expected
literal value; a `none` field is an attribute the pattern does not declare. -/
structure Pattern where
  entrypoint : Option String := none
  target_address : Option String := none
  deriving DecidableEq, Repr

/-- Embedding of the `PATTERN_TO_PATH` table. -/
def PATTERN_TO_PATH : PatternKey → String
  | PatternKey.entrypoint => "parameter.entrypoint"
  | PatternKey.target_address => "target.address"

/-- Embedding of lodash `get(transaction, path)` for the dotted paths the
embedded code uses; an unsupported or absent path yields `none`
(undefined). -/
def getPath (t : Transaction) : String → Option String
  | "parameter.entrypoint" => t.parameter.map Parameter.entrypoint
  | "parameter.value" => t.parameter.bind Parameter.value
  | "target.address" => t.target.map AccountRef.address
  | _ => none

/-- `Object.entries(pattern)`: the declared (key, expected value) pairs, in
field order. -/
def patternEntries (p : Pattern) : List (PatternKey × String) :=
  (match p.entrypoint with
    | some v => [(PatternKey.entrypoint, v)]
    | none => []) ++
  (match p.target_address with
    | some v => [(PatternKey.target_address, v)]
    | none => [])

/-- Embedding of `transactionMatchesPattern`: every declared attribute must
resolve through `PATTERN_TO_PATH` to the expected value. -/
def transactionMatchesPattern (transaction : Transaction) (pattern : Pattern) : Bool :=
  (patternEntries pattern).all
    (fun kv => decide (getPath transaction (PATTERN_TO_PATH kv.1) = some kv.2))

/-- Error message thrown by `createEventId` when an identity field is
absent. -/
def eventIdMissingFieldsMsg : String :=
  "transaction does not have all the properties needed (counter, hash and nonce) to create an eventId."

/-- Error raised by the JavaScript `in` operator when its right operand is a
primitive number instead of an object. -/
def inOperatorTypeErrorMsg : String :=
  "TypeError: cannot use the in operator to search for hash in a number"

/-- Error raised when `.find` is invoked on undefined, i.e. when
`transaction.diffs` is absent despite the non-null assertion. -/
def undefinedDiffsMsg : String :=
  "TypeError: cannot read properties of undefined"

/-- Error raised by superstruct `assert` when the built event violates the
declared schema. -/
def schemaViolationMsg : String :=
  "SchemaViolation"

/-- The argument `createEventId` receives for its `transaction` parameter:
a transaction, an origination, or (as the 8BID cancel-swap handler passes
it) a bare number. -/
inductive EventIdArg where
  | op (t : Transaction)
  | orig (o : Origination)
  | num (n : Int)

/-- The digest input `handlerName:hash:counter:(nonce | unset):idx` built by
the template literal inside `createEventId`. -/
def eventIdPreimage (handlerName : String) (hash : String) (counter : Int)
    (nonce : Option Int) (idx : Nat) : String :=
  handlerName ++ ":" ++ hash ++ ":" ++ toString counter ++ ":" ++
    (match nonce with
      | some n => toString n
      | none => "unset") ++ ":" ++ toString idx

/-- Embedding of `createEventId`. The presence check `hash in t && counter
in t && nonce in t` fails (throws) when a field is absent; applying the `in`
operator to a bare number throws a TypeError in JavaScript, so the `num`
case also throws. On success the id is the metrohash128 digest of
`eventIdPreimage`. -/
def createEventId (metrohash128 : String → String) (handlerName : String)
    (transaction : EventIdArg) (idx : Nat) : Except String String :=
  match transaction with
  | EventIdArg.num _ => Except.error inOperatorTypeErrorMsg
  | EventIdArg.op t =>
    match t.hash, t.counter, t.nonce with
    | some h, some c, some n =>
      Except.ok (metrohash128 (eventIdPreimage handlerName h c n idx))
    | none, _, _ => Except.error eventIdMissingFieldsMsg
    | _, none, _ => Except.error eventIdMissingFieldsMsg
    | _, _, none => Except.error eventIdMissingFieldsMsg
  | EventIdArg.orig o =>
    match o.hash, o.counter, o.nonce with
    | some h, some c, some n =>
      Except.ok (metrohash128 (eventIdPreimage handlerName h c n idx))
    | none, _, _ => Except.error eventIdMissingFieldsMsg
    | _, none, _ => Except.error eventIdMissingFieldsMsg
    | _, _, none => Except.error eventIdMissingFieldsMsg

/-- One pass of lodash `uniqBy(l, key)` with an accumulator of already-seen
keys: the first record with each key survives, in order. -/
def uniqByAux {α : Type} (key : α → Int) : List α → List Int → List α
  | [], _ => []
  | x :: xs, seen =>
    if key x ∈ seen then uniqByAux key xs seen
    else x :: uniqByAux key xs (key x :: seen)

/-- Embedding of lodash `uniqBy(l, 'id')` via the key projection. -/
def uniqBy {α : Type} (key : α → Int) (l : List α) : List α :=
  uniqByAux key l []

/-- The shared do-while page loop of `getTransactions` and
`getOriginations`, instrumented with the number of page requests issued.
`remaining = maxPages - currentPage`; the body always runs once (do-while),
and after fetching page `currentPage` the loop continues exactly when the
page was full and `currentPage + 1 < maxPages`. -/
def fetchPages {α : Type} (src : Nat → List α) (perPage : Nat)
    (currentPage remaining : Nat) : List α × Nat :=
  let page := src currentPage
  if page.length < perPage then (page, 1)
  else
    match remaining with
    | 0 => (page, 1)
    | 1 => (page, 1)
    | r + 2 =>
      let rest := fetchPages src perPage (currentPage + 1) (r + 1)
      (page ++ rest.1, rest.2 + 1)

/-- Embedding of `getTransactions`: fetch pages sequentially from the
oracle, then `uniqBy(allTransactions, 'id')`; the second component counts
the page requests issued. -/
def getTransactions (src : Nat → List Transaction) (perPage maxPages : Nat) :
    List Transaction × Nat :=
  let res := fetchPages src perPage 0 maxPages
  (uniqBy Transaction.id res.1, res.2)

/-- Embedding of `getOriginations`: identical loop over origination
records. -/
def getOriginations (src : Nat → List Origination) (perPage maxPages : Nat) :
    List Origination × Nat :=
  let res := fetchPages src perPage 0 maxPages
  (uniqBy Origination.id res.1, res.2)

/-- Event type tag of the objkt v3 retract-ask handler. -/
def EVENT_TYPE_OBJKT_RETRACT_ASK_V3 : String := "OBJKT_RETRACT_ASK_V3"

/-- The objkt v3 marketplace contract the handler accepts, as documented in
the handler metadata. -/
def OBJKT_CONTRACT_MARKETPLACE_V3 : String := "KT1CePTyk6fk4cFr6fasY5YXPGks6ttjSLp4"

/-- The accept pattern of the objkt v3 retract-ask handler. -/
def objktRetractAskV3Accept : Pattern :=
  { entrypoint := some "retract_ask"
    target_address := some OBJKT_CONTRACT_MARKETPLACE_V3 }

/-- The event record built by the objkt v3 retract-ask handler; fields
obtained through lodash `get` keep their possibly-undefined nature. -/
structure ObjktRetractAskV3Event where
  id : String
  opid : String
  ophash : Option String
  level : Int
  timestamp : String
  fa2_address : Option String
  seller_address : Option String
  token_id : Option String
  ask_id : Option String
  deriving DecidableEq, Repr

/-- Embedding of the `exec` of the objkt v3 retract-ask handler. The
superstruct `assert` against the declared schema is the predicate
`schemaOk`; a `false` verdict throws. -/
def objktRetractAskV3Exec (metrohash128 : String → String)
    (schemaOk : ObjktRetractAskV3Event → Bool) (transaction : Transaction) :
    Except String ObjktRetractAskV3Event :=
  let askId := getPath transaction "parameter.value"
  match transaction.diffs with
  | none => Except.error undefinedDiffsMsg
  | some diffs =>
    let diff := findDiff diffs (some 574013) "asks"
      (ActionArg.one BigmapDiffAction.remove_key) askId
    let fa2Address := diff.bind (fun d => d.content.value.token.map TokenRef.address)
    let tokenId := diff.bind (fun d => d.content.value.token.map TokenRef.token_id)
    let sellerAddress := diff.bind (fun d => d.content.value.creator)
    match createEventId metrohash128 EVENT_TYPE_OBJKT_RETRACT_ASK_V3
        (EventIdArg.op transaction) 0 with
    | Except.error e => Except.error e
    | Except.ok id =>
      let event : ObjktRetractAskV3Event :=
        { id := id
          opid := toString transaction.id
          ophash := transaction.hash
          level := transaction.level
          timestamp := transaction.timestamp
          fa2_address := fa2Address
          seller_address := sellerAddress
          token_id := tokenId
          ask_id := askId }
      if schemaOk event then Except.ok event else Except.error schemaViolationMsg

/-- Event type tag of the 8BID 24x24 monochrome cancel-swap handler. -/
def EVENT_TYPE_8BID_24X24_MONOCHROME_CANCEL_SWAP : String :=
  "8BID_24X24_MONOCHROME_CANCEL_SWAP"

/-- The event record built by the 8BID 24x24 monochrome cancel-swap
handler. -/
structure EightbidCancelSwap24x24MonochromeEvent where
  id : String
  opid : Int
  timestamp : String
  level : Int
  fa2_address : Option String
  seller_address : Option String
  artist_address : Option String
  token_id : Option String
  swap_id : Option String
  deriving DecidableEq, Repr

/-- Embedding of the `exec` of the 8BID 24x24 monochrome cancel-swap
handler. Note that, as in the source, `createEventId` receives the bare
number `transaction.id` rather than the transaction record. -/
def eightbidMonochromeCancelSwapExec (metrohash128 : String → String)
    (schemaOk : EightbidCancelSwap24x24MonochromeEvent → Bool)
    (transaction : Transaction) : Except String EightbidCancelSwap24x24MonochromeEvent :=
  let swapId := getPath transaction "parameter.value"
  match transaction.diffs with
  | none => Except.error undefinedDiffsMsg
  | some diffs =>
    let diff := findDiff diffs (some 128202) "swap_list"
      (ActionArg.one BigmapDiffAction.update_key) swapId
    let fa2Address := diff.bind (fun d => d.content.value.nft_contract_address)
    let tokenId := diff.bind (fun d => d.content.value.nft_id)
    let sellerAddress := diff.bind (fun d => d.content.value.seller)
    let artistAddress := diff.bind (fun d => d.content.value.creator)
    match createEventId metrohash128 EVENT_TYPE_8BID_24X24_MONOCHROME_CANCEL_SWAP
        (EventIdArg.num transaction.id) 0 with
    | Except.error e => Except.error e
    | Except.ok id =>
      let event : EightbidCancelSwap24x24MonochromeEvent :=
        { id := id
          opid := transaction.id
          timestamp := transaction.timestamp
          level := transaction.level
          fa2_address := fa2Address
          seller_address := sellerAddress
          artist_address := artistAddress
          token_id := tokenId
          swap_id := swapId }
      if schemaOk event then Except.ok event else Except.error schemaViolationMsg

/-- Sample diff used by witnesses and counterexamples: a remove_key diff on
bigmap 574013 at path `asks` with key `42`. -/
def sampleAskDiff : BigmapDiff :=
  { bigmap := 574013
    path := "asks"
    action := BigmapDiffAction.remove_key
    content :=
      { key := "42"
        value :=
          { token := some { address := "KT1fa2contract", token_id := "9" }
            creator := some "tz1sellerAddress" } } }

/-- Sample diff that matches no retract-ask query, used by witnesses. -/
def otherDiff : BigmapDiff :=
  { bigmap := 1
    path := "other"
    action := BigmapDiffAction.add_key
    content := { key := "9" } }

/-- Sample transaction accepted by the objkt v3 retract-ask handler. -/
def sampleRetractTx : Transaction :=
  { id := 501
    level := 2500000
    timestamp := "2022-05-01T00:00:00Z"
    hash := some "oohash501"
    counter := some 33
    nonce := some none
    target := some { address := OBJKT_CONTRACT_MARKETPLACE_V3 }
    parameter := some { entrypoint := "retract_ask", value := some "42" }
    diffs := some [sampleAskDiff] }

/-- Sample transaction A for the determinism witness. -/
def txA : Transaction :=
  { id := 1
    level := 10
    timestamp := "2022-01-01T00:00:00Z"
    hash := some "oo1"
    counter := some 7
    nonce := some none
    sender := some { address := "tz1a" }
    amount := 5 }

/-- Sample transaction B: same identity fields as `txA`, every other field
different. -/
def txB : Transaction :=
  { id := 2
    level := 999
    timestamp := "2023-12-31T23:59:59Z"
    hash := some "oo1"
    counter := some 7
    nonce := some none
    sender := some { address := "tz1b" }
    target := some { address := "KT1x" }
    amount := 123
    status := "applied"
    hasInternals := true }

/-- Sample transaction lacking the nonce field. -/
def txMissingNonce : Transaction :=
  { id := 3
    hash := some "oo3"
    counter := some 1 }

/-- Sample transaction with a present-but-null nonce. -/
def txNullNonce : Transaction :=
  { id := 4
    hash := some "oo4"
    counter := some 9
    nonce := some none }

/-- Sample transaction identical to `txNullNonce` except `nonce = 0`. -/
def txZeroNonce : Transaction :=
  { id := 4
    hash := some "oo4"
    counter := some 9
    nonce := some (some 0) }

/-- Page oracle where page 1 repeats the last record of page 0. -/
def srcRepeat : Nat → List Transaction
  | 0 => [{ id := 1 }, { id := 2 }]
  | 1 => [{ id := 2 }, { id := 3 }]
  | _ => []

/-- Record constructor for the 2000/2000/843 pagination scenario. -/
def mkTx (n : Nat) : Transaction :=
  { id := Int.ofNat n }

/-- Page sizes of the 2000/2000/843 pagination scenario. -/
def pageLen4843 : Nat → Nat
  | 0 => 2000
  | 1 => 2000
  | 2 => 843
  | _ => 0

/-- Page oracle of the 2000/2000/843 pagination scenario: three pages of
2000, 2000 and 843 records with globally distinct ids. -/
def src4843 : Nat → List Transaction :=
  fun p => (List.range' (2000 * p) (pageLen4843 p)).map mkTx

/-- A page oracle whose every page is exactly full (one record per page,
perPage 1). -/
def srcAlwaysFull : Nat → List Transaction :=
  fun p => [{ id := Int.ofNat p }]

/-- Helper: `find?` returns the head of `filter`. -/
theorem list_find?_eq_head?_filter {α : Type} (p : α → Bool) (l : List α) :
    l.find? p = (l.filter p).head? := by
  induction l with
  | nil => rfl
  | cons x xs ih =>
    cases h : p x
    · rw [List.find?_cons_of_neg _ (by simp [h]), List.filter_cons_of_neg (by simp [h]), ih]
    · rw [List.find?_cons_of_pos _ h, List.filter_cons_of_pos h, List.head?_cons]

/-- Helper: unfolding characterisation of `isMatchingDiff`: the JavaScript
truthiness of the key argument means the key comparison only constrains a
present, nonempty key. -/
theorem isMatchingDiff_eq_true_iff (d : BigmapDiff) (b : Option Int) (path : String)
    (a : ActionArg) (key : Option String) :
    isMatchingDiff d b path a key = true ↔
      ((b = none ∨ b = some d.bigmap) ∧ d.path = path ∧ d.action ∈ a.toList ∧
        ∀ k, key = some k → k ≠ "" → d.content.key = k) := by
  unfold isMatchingDiff
  rcases b with _ | b <;> rcases key with _ | k
  · simp only [Bool.and_eq_true, decide_eq_true_iff]
    aesop
  · by_cases hk : k = "" <;> simp only [Bool.and_eq_true, decide_eq_true_iff, hk] <;> aesop
  · simp only [Bool.and_eq_true, decide_eq_true_iff]
    aesop
  · by_cases hk : k = "" <;> simp only [Bool.and_eq_true, decide_eq_true_iff, hk] <;> aesop

/-- Helper: `uniqByAux` returns a sublist of its input. -/
theorem uniqByAux_sublist {α : Type} (key : α → Int) :
    ∀ (l : List α) (seen : List Int), List.Sublist (uniqByAux key l seen) l := by
  intro l
  induction l with
  | nil => intro seen; simp [uniqByAux]
  | cons x xs ih =>
    intro seen
    unfold uniqByAux
    by_cases h : key x ∈ seen
    · simp only [if_pos h]
      exact (ih seen).trans (List.sublist_cons_self x xs)
    · simp only [if_neg h]
      exact List.Sublist.cons₂ x (ih (key x :: seen))

/-- Helper: the keys of `uniqByAux key l seen` are nodup and disjoint from
`seen`. -/
theorem uniqByAux_nodup_keys {α : Type} (key : α → Int) :
    ∀ (l : List α) (seen : List Int),
      ((uniqByAux key l seen).map key).Nodup ∧
        ∀ x ∈ uniqByAux key l seen, key x ∉ seen := by
  intro l
  induction l with
  | nil => intro seen; simp [uniqByAux]
  | cons x xs ih =>
    intro seen
    unfold uniqByAux
    by_cases h : key x ∈ seen
    · simpa only [if_pos h] using ih seen
    · simp only [if_neg h]
      obtain ⟨hnd, hdisj⟩ := ih (key x :: seen)
      refine ⟨?_, ?_⟩
      · refine List.Nodup.cons ?_ hnd
        intro hmem
        obtain ⟨y, hy, hky⟩ := List.mem_map.mp hmem
        exact (hdisj y hy) (by simp [hky])
      · intro z hz
        rcases List.mem_cons.mp hz with hz1 | hz2
        · rw [hz1]; exact h
        · intro hzs
          exact (hdisj z hz2) (List.mem_cons_of_mem _ hzs)

/-- Helper: `uniqByAux` preserves the first record found for every key not
already seen. -/
theorem uniqByAux_find? {α : Type} (key : α → Int) :
    ∀ (l : List α) (seen : List Int) (i : Int), i ∉ seen →
      (uniqByAux key l seen).find? (fun r => decide (key r = i)) =
        l.find? (fun r => decide (key r = i)) := by
  intro l
  induction l with
  | nil => intro seen i _; simp [uniqByAux]
  | cons x xs ih =>
    intro seen i hi
    unfold uniqByAux
    by_cases h : key x ∈ seen
    · simp only [if_pos h]
      have hne : ¬ key x = i := fun hEq => hi (hEq ▸ h)
      rw [List.find?_cons_of_neg _ (by simp [hne]), ih seen i hi]
    · simp only [if_neg h]
      by_cases hxi : key x = i
      · rw [List.find?_cons_of_pos _ (by simp [hxi]), List.find?_cons_of_pos _ (by simp [hxi])]
      · rw [List.find?_cons_of_neg _ (by simp [hxi]), List.find?_cons_of_neg _ (by simp [hxi])]
        refine ih (key x :: seen) i ?_
        intro hmem
        rcases List.mem_cons.mp hmem with h1 | h2
        · exact hxi h1.symm
        · exact hi h2

/-- Helper: on a list whose keys are already nodup and unseen, `uniqByAux`
is the identity. -/
theorem uniqByAux_eq_self {α : Type} (key : α → Int) :
    ∀ (l : List α) (seen : List Int), (l.map key).Nodup →
      (∀ x ∈ l, key x ∉ seen) → uniqByAux key l seen = l := by
  intro l
  induction l with
  | nil => intro seen _ _; simp [uniqByAux]
  | cons x xs ih =>
    intro seen hnd hdisj
    unfold uniqByAux
    rw [if_neg (hdisj x (List.mem_cons_self x xs))]
    have hxs : ∀ y ∈ xs, key y ∉ key x :: seen := by
      intro y hy
      intro hmem
      rcases List.mem_cons.mp hmem with h1 | h2
      · have : key x ∉ xs.map key := (List.nodup_cons.mp (by simpa using hnd)).1
        exact this (h1 ▸ List.mem_map_of_mem key hy)
      · exact hdisj y (List.mem_cons_of_mem _ hy) h2
    rw [ih (key x :: seen) ((List.nodup_cons.mp (by simpa using hnd)).2) hxs]

/-- Helper: when every page up to `remaining` is full, the do-while loop
issues exactly `remaining` requests and concatenates all those pages. -/
theorem fetchPages_all_full {α : Type} (src : Nat → List α) (perPage : Nat) :
    ∀ (r cp : Nat), 1 ≤ r → (∀ j, j < r → perPage ≤ (src (cp + j)).length) →
      fetchPages src perPage cp r = (((List.range' cp r).map src).flatten, r) := by
  intro r
  induction r using Nat.strong_induction_on with
  | _ r ih =>
    intro cp hr hfull
    rcases r with _ | r
    · omega
    rcases r with _ | r
    · have h0 : perPage ≤ (src cp).length := by simpa using hfull 0 (by omega)
      unfold fetchPages
      rw [if_neg (by omega)]
      simp [List.range']
    · have h0 : perPage ≤ (src cp).length := by simpa using hfull 0 (by omega)
      unfold fetchPages
      rw [if_neg (by omega)]
      have hrec := ih (r + 1) (by omega) (cp + 1) (by omega)
        (fun j hj => by
          have := hfull (j + 1) (by omega)
          simpa [Nat.add_assoc, Nat.add_comm 1 j] using this)
      simp only [hrec, List.range']
      simp

/-- Helper: when the first short page is at offset `k < r`, the do-while
loop issues exactly `k + 1` requests and concatenates pages `cp..cp+k`. -/
theorem fetchPages_stop_short {α : Type} (src : Nat → List α) (perPage : Nat) :
    ∀ (k cp r : Nat), k < r → (∀ j, j < k → perPage ≤ (src (cp + j)).length) →
      (src (cp + k)).length < perPage →
      fetchPages src perPage cp r = (((List.range' cp (k + 1)).map src).flatten, k + 1) := by
  intro k
  induction k with
  | zero =>
    intro cp r _ _ hshort
    unfold fetchPages
    rw [if_pos (by simpa using hshort)]
    simp [List.range']
  | succ k ih =>
    intro cp r hkr hfull hshort
    have h0 : perPage ≤ (src cp).length := by simpa using hfull 0 (by omega)
    rcases r with _ | r
    · omega
    rcases r with _ | r
    · omega
    unfold fetchPages
    rw [if_neg (by omega)]
    have hrec := ih (cp + 1) (r + 1) (by omega)
      (fun j hj => by
        have := hfull (j + 1) (by omega)
        simpa [Nat.add_assoc, Nat.add_comm 1 j] using this)
      (by
        have heq : cp + 1 + k = cp + (k + 1) := by omega
        rw [heq]
        exact hshort)
    simp only [hrec, List.range']
    simp

/-- C1: `createEventId` is deterministic and depends only on its declared
inputs: for one handler type, digest function and sub-index, any two
transactions agreeing on `hash`, `counter` and `nonce` produce identical
results, whatever their other fields (id, level, sender, target, amount,
parameter, status, diffs, ...). -/
theorem createEventId_deterministic (metrohash128 : String → String)
    (handlerName : String) (t u : Transaction) (idx : Nat)
    (hh : t.hash = u.hash) (hc : t.counter = u.counter) (hn : t.nonce = u.nonce) :
    createEventId metrohash128 handlerName (EventIdArg.op t) idx =
      createEventId metrohash128 handlerName (EventIdArg.op u) idx := by
  simp only [createEventId, hh, hc, hn]

/-- Witness for C1: `txA` and `txB` differ in id, level, timestamp, sender,
target, amount and hasInternals but share the identity fields, and get the
same event id. -/
theorem createEventId_deterministic_witness :
    createEventId (fun s => s) "OBJKT_RETRACT_ASK_V3" (EventIdArg.op txA) 0 =
      createEventId (fun s => s) "OBJKT_RETRACT_ASK_V3" (EventIdArg.op txB) 0 :=
  createEventId_deterministic (fun s => s) "OBJKT_RETRACT_ASK_V3" txA txB 0 rfl rfl rfl

/-- C2: `createEventId` throws its precondition error exactly when the
transaction record lacks `hash`, `counter` or `nonce`, and returns an id
exactly when all three fields are present (a present-but-null nonce
counts as present). -/
theorem createEventId_error_iff (metrohash128 : String → String)
    (handlerName : String) (t : Transaction) (idx : Nat) :
    (createEventId metrohash128 handlerName (EventIdArg.op t) idx =
        Except.error eventIdMissingFieldsMsg ↔
      (t.hash = none ∨ t.counter = none ∨ t.nonce = none)) ∧
    ((∃ v, createEventId metrohash128 handlerName (EventIdArg.op t) idx = Except.ok v) ↔
      (t.hash ≠ none ∧ t.counter ≠ none ∧ t.nonce ≠ none)) := by
  unfold createEventId
  cases ht : t.hash <;> cases hc : t.counter <;> cases hn : t.nonce <;> simp [ht, hc, hn]

/-- Witness for C2: a transaction without the nonce field fails with the
precondition message; `txNullNonce` (whose nonce is present but null)
yields an id. -/
theorem createEventId_error_iff_witness :
    (createEventId (fun s => s) "H" (EventIdArg.op txMissingNonce) 0 =
      Except.error eventIdMissingFieldsMsg) ∧
    ∃ v, createEventId (fun s => s) "H" (EventIdArg.op txNullNonce) 0 = Except.ok v :=
  ⟨(createEventId_error_iff (fun s => s) "H" txMissingNonce 0).1.mpr (by
      right; right; rfl),
   (createEventId_error_iff (fun s => s) "H" txNullNonce 0).2.mpr (by
      refine ⟨?_, ?_, ?_⟩ <;> simp [txNullNonce])⟩

/-- C9: the null nonce is encoded by the sentinel string `unset`, which can
never produce the digest input of the same transaction with nonce `0`: the
two preimages differ (they do not even have equal length), so for any
injective digest the two event ids differ. -/
theorem eventIdPreimage_null_nonce_ne_zero (handlerName hash : String)
    (counter : Int) (idx : Nat) :
    eventIdPreimage handlerName hash counter none idx ≠
        eventIdPreimage handlerName hash counter (some 0) idx ∧
    (∀ (metrohash128 : String → String), Function.Injective metrohash128 →
      ∀ t u : Transaction,
        t.hash = some hash → t.counter = some counter → t.nonce = some none →
        u.hash = some hash → u.counter = some counter → u.nonce = some (some 0) →
        createEventId metrohash128 handlerName (EventIdArg.op t) idx ≠
          createEventId metrohash128 handlerName (EventIdArg.op u) idx) := by
  have hpre : eventIdPreimage handlerName hash counter none idx ≠
      eventIdPreimage handlerName hash counter (some 0) idx := by
    intro h
    have hlen := congrArg String.length h
    simp only [eventIdPreimage, String.length_append] at hlen
    have h5 : ("unset" : String).length = 5 := rfl
    have h1 : (toString (0 : Int)).length = 1 := rfl
    rw [h5, h1] at hlen
    omega
  refine ⟨hpre, ?_⟩
  intro metrohash128 hinj t u ht1 ht2 ht3 hu1 hu2 hu3 heq
  simp only [createEventId, ht1, ht2, ht3, hu1, hu2, hu3, Except.ok.injEq] at heq
  exact hpre (hinj heq)

/-- Witness for C9: concrete transactions with null nonce and nonce 0,
under the identity digest (which is injective), get different ids. -/
theorem eventIdPreimage_null_nonce_ne_zero_witness :
    eventIdPreimage "H" "oo4" 9 none 0 ≠ eventIdPreimage "H" "oo4" 9 (some 0) 0 ∧
    createEventId (fun s => s) "H" (EventIdArg.op txNullNonce) 0 ≠
      createEventId (fun s => s) "H" (EventIdArg.op txZeroNonce) 0 :=
  ⟨(eventIdPreimage_null_nonce_ne_zero "H" "oo4" 9 0).1,
   (eventIdPreimage_null_nonce_ne_zero "H" "oo4" 9 0).2 (fun s => s)
     (fun _ _ hab => hab) txNullNonce txZeroNonce rfl rfl rfl rfl rfl rfl⟩

/-- C10: the 8BID 24x24 monochrome cancel-swap handler passes the bare
number `transaction.id` to `createEventId`, whose presence check a number
can never satisfy, so `exec` throws before returning for every transaction
and the handler never emits an event. -/
theorem eightbidMonochromeCancelSwapExec_never_emits (metrohash128 : String → String)
    (schemaOk : EightbidCancelSwap24x24MonochromeEvent → Bool) (t : Transaction) :
    (eightbidMonochromeCancelSwapExec metrohash128 schemaOk t).isOk = false ∧
    (∀ ds, t.diffs = some ds →
      eightbidMonochromeCancelSwapExec metrohash128 schemaOk t =
        Except.error inOperatorTypeErrorMsg) := by
  unfold eightbidMonochromeCancelSwapExec createEventId
  cases t.diffs <;> simp [Except.isOk, Except.toBool]

/-- Witness for C10: the handler rejects `sampleRetractTx` (which carries
diffs) with the TypeError of the `in` operator. -/
theorem eightbidMonochromeCancelSwapExec_never_emits_witness :
    (eightbidMonochromeCancelSwapExec (fun s => s) (fun _ => true) sampleRetractTx).isOk
        = false ∧
    eightbidMonochromeCancelSwapExec (fun s => s) (fun _ => true) sampleRetractTx =
      Except.error inOperatorTypeErrorMsg :=
  ⟨(eightbidMonochromeCancelSwapExec_never_emits (fun s => s) (fun _ => true)
      sampleRetractTx).1,
   (eightbidMonochromeCancelSwapExec_never_emits (fun s => s) (fun _ => true)
      sampleRetractTx).2 [sampleAskDiff] rfl⟩

/-- C3: `transactionMatchesPattern` is true exactly when every declared
(attribute, expected value) pair of the pattern resolves through
`PATTERN_TO_PATH` to an equal value of the transaction; it is false — not
an error — whenever a declared attribute resolves to nothing, and the
empty pattern matches every transaction. -/
theorem transactionMatchesPattern_iff (t : Transaction) (p : Pattern) :
    (transactionMatchesPattern t p = true ↔
      ∀ kv ∈ patternEntries p, getPath t (PATTERN_TO_PATH kv.1) = some kv.2) ∧
    ((∃ kv ∈ patternEntries p, getPath t (PATTERN_TO_PATH kv.1) = none) →
      transactionMatchesPattern t p = false) ∧
    transactionMatchesPattern t { entrypoint := none, target_address := none } = true := by
  have hmain : transactionMatchesPattern t p = true ↔
      ∀ kv ∈ patternEntries p, getPath t (PATTERN_TO_PATH kv.1) = some kv.2 := by
    unfold transactionMatchesPattern
    rw [List.all_eq_true]
    constructor
    · intro h kv hkv
      exact of_decide_eq_true (h kv hkv)
    · intro h kv hkv
      exact decide_eq_true (h kv hkv)
  refine ⟨hmain, ?_, ?_⟩
  · intro ⟨kv, hkv, hnone⟩
    rcases hb : transactionMatchesPattern t p with _ | _
    · rfl
    · have := hmain.mp hb kv hkv
      rw [hnone] at this
      exact absurd this (by simp)
  · rfl

/-- Witness for C3: the sample retract-ask transaction matches the handler
accept pattern, and dropping its target makes the match fail. -/
theorem transactionMatchesPattern_iff_witness :
    transactionMatchesPattern sampleRetractTx objktRetractAskV3Accept = true ∧
    transactionMatchesPattern { id := 77 } objktRetractAskV3Accept = false :=
  ⟨(transactionMatchesPattern_iff sampleRetractTx objktRetractAskV3Accept).1.mpr
      (by decide),
   (transactionMatchesPattern_iff { id := 77 } objktRetractAskV3Accept).2.1
      ⟨(PatternKey.entrypoint, "retract_ask"), by decide, by decide⟩⟩

/-- C4 counterexample: with a supplied empty-string key (falsy in
JavaScript) the key comparison is skipped, so `findDiff`/`filterDiffs`
return a diff whose `content.key` differs from the supplied key, refuting
the claim that every returned diff has `content.key` equal to a supplied
key argument. -/
theorem filterDiffs_empty_key_counterexample :
    filterDiffs [sampleAskDiff] none "asks" (ActionArg.one BigmapDiffAction.remove_key)
        (some "") = [sampleAskDiff] ∧
    findDiff [sampleAskDiff] none "asks" (ActionArg.one BigmapDiffAction.remove_key)
        (some "") = some sampleAskDiff ∧
    sampleAskDiff.content.key ≠ "" := by
  refine ⟨by decide, by decide, by decide⟩

/-- C4 (amended): a diff satisfies the query iff the bigmap id is null or
equal, the path is equal, the action is in the action set, and — whenever
the key argument is present and nonempty — `content.key` is exactly equal
to it (a missing or empty-string key imposes no constraint, by JavaScript
truthiness); consequently every diff returned by `findDiff`/`filterDiffs`
for a nonempty key has `content.key` equal to that key. -/
theorem isMatchingDiff_characterisation (d : BigmapDiff) (b : Option Int)
    (path : String) (a : ActionArg) (key : Option String) :
    (isMatchingDiff d b path a key = true ↔
      ((b = none ∨ b = some d.bigmap) ∧ d.path = path ∧ d.action ∈ a.toList ∧
        ∀ k, key = some k → k ≠ "" → d.content.key = k)) ∧
    (∀ (D : List BigmapDiff) (k : String), k ≠ "" →
      (∀ x ∈ filterDiffs D b path a (some k), x.content.key = k) ∧
      (∀ x, findDiff D b path a (some k) = some x → x.content.key = k)) := by
  refine ⟨isMatchingDiff_eq_true_iff d b path a key, ?_⟩
  intro D k hk
  constructor
  · intro x hx
    have hmem := List.mem_filter.mp hx
    have := (isMatchingDiff_eq_true_iff x b path a (some k)).mp hmem.2
    exact this.2.2.2 k rfl hk
  · intro x hx
    have hx2 : D.find? (fun d => isMatchingDiff d b path a (some k)) = some x := hx
    have hpred := List.find?_some hx2
    have := (isMatchingDiff_eq_true_iff x b path a (some k)).mp (by simpa using hpred)
    exact this.2.2.2 k rfl hk

/-- Witness for C4 (amended): a nonempty key constrains the result:
querying `42` returns the sample diff, whose key is `42`; querying `7`
returns nothing. -/
theorem isMatchingDiff_characterisation_witness :
    isMatchingDiff sampleAskDiff (some 574013) "asks"
        (ActionArg.one BigmapDiffAction.remove_key) (some "42") = true ∧
    ∀ x ∈ filterDiffs [sampleAskDiff] (some 574013) "asks"
        (ActionArg.one BigmapDiffAction.remove_key) (some "42"),
      x.content.key = "42" :=
  ⟨(isMatchingDiff_characterisation sampleAskDiff (some 574013) "asks"
      (ActionArg.one BigmapDiffAction.remove_key) (some "42")).1.mpr
      (by refine ⟨Or.inr rfl, rfl, by decide, ?_⟩
          intro k hk _
          cases hk
          rfl),
   ((isMatchingDiff_characterisation sampleAskDiff (some 574013) "asks"
      (ActionArg.one BigmapDiffAction.remove_key) (some "42")).2 [sampleAskDiff] "42"
      (by decide)).1⟩

/-- C5: `findDiff` returns the head of `filterDiffs` (and is none exactly
when that list is empty), and `filterDiffs` returns precisely the
satisfying diffs of the input, in their original order (a sublist of the
input), empty when nothing matches. -/
theorem findDiff_eq_head_filterDiffs (D : List BigmapDiff) (b : Option Int)
    (path : String) (a : ActionArg) (key : Option String) :
    (findDiff D b path a key = (filterDiffs D b path a key).head?) ∧
    (findDiff D b path a key = none ↔ filterDiffs D b path a key = []) ∧
    List.Sublist (filterDiffs D b path a key) D ∧
    (∀ x, x ∈ filterDiffs D b path a key ↔
      x ∈ D ∧ isMatchingDiff x b path a key = true) := by
  have hhead : findDiff D b path a key = (filterDiffs D b path a key).head? :=
    list_find?_eq_head?_filter _ D
  refine ⟨hhead, ?_, List.filter_sublist D, ?_⟩
  · rw [hhead]
    exact List.head?_eq_none_iff
  · intro x
    exact List.mem_filter

/-- Witness for C5 at concrete inputs: on a two-diff list where only the
second matches, `findDiff` returns that diff, the head of `filterDiffs`. -/
theorem findDiff_eq_head_filterDiffs_witness :
    findDiff [otherDiff, sampleAskDiff] (some 574013) "asks"
        (ActionArg.one BigmapDiffAction.remove_key) (some "42") = some sampleAskDiff ∧
    filterDiffs [otherDiff, sampleAskDiff] (some 574013) "asks"
        (ActionArg.one BigmapDiffAction.remove_key) (some "42") = [sampleAskDiff] :=
  ⟨by
      rw [(findDiff_eq_head_filterDiffs [otherDiff, sampleAskDiff] (some 574013) "asks"
        (ActionArg.one BigmapDiffAction.remove_key) (some "42")).1]
      decide,
   by decide⟩

/-- C6 counterexample: the page loop is a do-while, so its body runs before
the `currentPage < maxPages` test: with `maxPages = 0` the claimed request
count is `min(first-short-page+1, maxPages) = 0`, but one request is
issued. -/
theorem getTransactions_maxPages_zero_counterexample :
    (getTransactions (fun _ => ([] : List Transaction)) 2000 0).2 = 1 ∧
    ¬ ((getTransactions (fun _ => ([] : List Transaction)) 2000 0).2 ≤ 0) := by
  refine ⟨by decide, by decide⟩

/-- C6 (amended): provided `maxPages ≥ 1`, `getTransactions` and
`getOriginations` terminate after the first page that returns fewer than
`perPage` records or after `maxPages` requests, whichever comes first: a
source whose first `maxPages` pages are all full costs exactly `maxPages`
requests, and a source whose first short page is page `k < maxPages` costs
exactly `k + 1` requests (with `maxPages = 0` the do-while still issues
one request). -/
theorem pagination_request_count (tsrc : Nat → List Transaction)
    (osrc : Nat → List Origination) (perPage maxPages k : Nat) (hmp : 1 ≤ maxPages) :
    ((∀ p, p < maxPages → perPage ≤ (tsrc p).length) →
      (getTransactions tsrc perPage maxPages).2 = maxPages) ∧
    ((∀ p, p < maxPages → perPage ≤ (osrc p).length) →
      (getOriginations osrc perPage maxPages).2 = maxPages) ∧
    (k < maxPages → (∀ p, p < k → perPage ≤ (tsrc p).length) →
      (tsrc k).length < perPage → (getTransactions tsrc perPage maxPages).2 = k + 1) ∧
    (k < maxPages → (∀ p, p < k → perPage ≤ (osrc p).length) →
      (osrc k).length < perPage → (getOriginations osrc perPage maxPages).2 = k + 1) := by
  refine ⟨?_, ?_, ?_, ?_⟩
  · intro h
    have hfull := fetchPages_all_full tsrc perPage maxPages 0 hmp
      (fun j hj => by simpa using h j hj)
    simp [getTransactions, hfull]
  · intro h
    have hfull := fetchPages_all_full osrc perPage maxPages 0 hmp
      (fun j hj => by simpa using h j hj)
    simp [getOriginations, hfull]
  · intro hk h hshort
    have hstop := fetchPages_stop_short tsrc perPage k 0 maxPages hk
      (fun j hj => by simpa using h j hj) (by simpa using hshort)
    simp [getTransactions, hstop]
  · intro hk h hshort
    have hstop := fetchPages_stop_short osrc perPage k 0 maxPages hk
      (fun j hj => by simpa using h j hj) (by simpa using hshort)
    simp [getOriginations, hstop]

/-- Witness for C6 (amended): the always-full source costs exactly
`maxPages = 3` requests; `srcRepeat` with `perPage = 2` is short first at
page 2, costing exactly 3 requests. -/
theorem pagination_request_count_witness :
    (getTransactions srcAlwaysFull 1 3).2 = 3 ∧
    (getTransactions srcRepeat 2 20).2 = 2 + 1 :=
  ⟨(pagination_request_count srcAlwaysFull (fun _ => []) 1 3 0 (by omega)).1
      (fun p _ => by simp [srcAlwaysFull]),
   (pagination_request_count srcRepeat (fun _ => []) 2 20 2 (by omega)).2.2.1 (by omega)
      (fun p hp => by
        rcases p with _ | _ | p
        · decide
        · decide
        · omega)
      (by decide)⟩

/-- C7: the lists returned by `getTransactions` and `getOriginations`
contain each record id at most once, are a sublist of the concatenated
pages (first-seen order), and keep for each id exactly its first-fetched
occurrence (the `find?` for any id is unchanged by the dedup); page 1 of
`srcRepeat` repeats the last record of page 0 and its id comes out exactly
once, and the 2000/2000/843 three-page fetch with all ids distinct returns
4843 records. -/
theorem getTransactions_dedup_by_id (tsrc : Nat → List Transaction)
    (osrc : Nat → List Origination) (perPage maxPages : Nat) :
    (((getTransactions tsrc perPage maxPages).1.map Transaction.id).Nodup ∧
      List.Sublist (getTransactions tsrc perPage maxPages).1
        (fetchPages tsrc perPage 0 maxPages).1 ∧
      ∀ i : Int, (getTransactions tsrc perPage maxPages).1.find?
          (fun r => decide (r.id = i)) =
        (fetchPages tsrc perPage 0 maxPages).1.find? (fun r => decide (r.id = i))) ∧
    (((getOriginations osrc perPage maxPages).1.map Origination.id).Nodup ∧
      List.Sublist (getOriginations osrc perPage maxPages).1
        (fetchPages osrc perPage 0 maxPages).1 ∧
      ∀ i : Int, (getOriginations osrc perPage maxPages).1.find?
          (fun r => decide (r.id = i)) =
        (fetchPages osrc perPage 0 maxPages).1.find? (fun r => decide (r.id = i))) ∧
    (getTransactions srcRepeat 2 20).1.map Transaction.id = [1, 2, 3] ∧
    (getTransactions src4843 2000 20).1.length = 4843 := by
  have hfull4843 : ∀ j, j < 2 → 2000 ≤ (src4843 (0 + j)).length := by
    intro j hj
    rcases j with _ | _ | j
    · simp [src4843, pageLen4843]
    · simp [src4843, pageLen4843]
    · omega
  have hshort4843 : (src4843 (0 + 2)).length < 2000 := by
    simp [src4843, pageLen4843]
  have hfetch := fetchPages_stop_short src4843 2000 2 0 20 (by omega) hfull4843 hshort4843
  have h3 : List.range' 0 3 = [0, 1, 2] := rfl
  have hids : (((List.range' 0 3).map src4843).flatten).map Transaction.id =
      (List.range' 0 4843).map Int.ofNat := by
    rw [h3]
    have hfn : Transaction.id ∘ mkTx = Int.ofNat := rfl
    have ha : List.range' 0 2000 ++ List.range' 2000 2000 = List.range' 0 4000 := by
      have h := List.range'_append 0 2000 2000 1
      norm_num at h
      exact h
    have hb : List.range' 0 4000 ++ List.range' 4000 843 = List.range' 0 4843 := by
      have h := List.range'_append 0 4000 843 1
      norm_num at h
      exact h
    simp only [List.map_cons, List.map_nil, List.flatten_cons, List.flatten_nil,
      src4843, pageLen4843, List.map_append, List.map_map, hfn]
    rw [← hb, ← ha]
    simp [List.map_append]
  have hnd : ((((List.range' 0 3).map src4843).flatten).map Transaction.id).Nodup := by
    rw [hids]
    exact (List.nodup_range' 0 4843 1 (by omega)).map (fun _ _ hab => Int.ofNat.inj hab)
  have heqself : uniqBy Transaction.id (((List.range' 0 3).map src4843).flatten) =
      ((List.range' 0 3).map src4843).flatten :=
    uniqByAux_eq_self Transaction.id _ [] hnd (by simp)
  have hlen : ((((List.range' 0 3).map src4843).flatten)).length = 4843 := by
    have h := congrArg List.length hids
    rw [List.length_map, List.length_map] at h
    rw [h]
    simp
  refine ⟨⟨?_, ?_, ?_⟩, ⟨?_, ?_, ?_⟩, ?_, ?_⟩
  · exact (uniqByAux_nodup_keys Transaction.id (fetchPages tsrc perPage 0 maxPages).1 []).1
  · exact uniqByAux_sublist Transaction.id (fetchPages tsrc perPage 0 maxPages).1 []
  · intro i
    exact uniqByAux_find? Transaction.id (fetchPages tsrc perPage 0 maxPages).1 [] i
      (by simp)
  · exact (uniqByAux_nodup_keys Origination.id (fetchPages osrc perPage 0 maxPages).1 []).1
  · exact uniqByAux_sublist Origination.id (fetchPages osrc perPage 0 maxPages).1 []
  · intro i
    exact uniqByAux_find? Origination.id (fetchPages osrc perPage 0 maxPages).1 [] i
      (by simp)
  · decide
  · simp only [getTransactions, hfetch]
    rw [heqself, hlen]

/-- C8: a transaction with entrypoint `retract_ask` and the configured
marketplace target, whose diffs contain exactly one matching `remove_key`
diff on bigmap 574013 / path `asks` with key equal to the parameter value,
makes the retract-ask handler produce exactly one event whose `ask_id` is
that key and whose `id` is reproduced by recomputing `createEventId` on the
same transaction. -/
theorem objktRetractAskV3Exec_produces_event (metrohash128 : String → String)
    (schemaOk : ObjktRetractAskV3Event → Bool) (t : Transaction) (k : String)
    (ds : List BigmapDiff) (d : BigmapDiff) (hsh : String) (c : Int) (nn : Option Int)
    (hpar : t.parameter = some { entrypoint := "retract_ask", value := some k })
    (htgt : t.target = some { address := OBJKT_CONTRACT_MARKETPLACE_V3 })
    (hdiffs : t.diffs = some ds)
    (hmem : d ∈ ds)
    (hmatch : isMatchingDiff d (some 574013) "asks"
        (ActionArg.one BigmapDiffAction.remove_key) (some k) = true)
    (huniq : ∀ d2 ∈ ds, isMatchingDiff d2 (some 574013) "asks"
        (ActionArg.one BigmapDiffAction.remove_key) (some k) = true → d2 = d)
    (hhash : t.hash = some hsh) (hcounter : t.counter = some c)
    (hnonce : t.nonce = some nn)
    (hok : ∀ e, schemaOk e = true) :
    transactionMatchesPattern t objktRetractAskV3Accept = true ∧
    ∃ e, objktRetractAskV3Exec metrohash128 schemaOk t = Except.ok e ∧
      e.ask_id = some k ∧
      createEventId metrohash128 EVENT_TYPE_OBJKT_RETRACT_ASK_V3 (EventIdArg.op t) 0 =
        Except.ok e.id := by
  have haskid : getPath t "parameter.value" = some k := by
    simp [getPath, hpar]
  refine ⟨?_, ?_⟩
  · simp [transactionMatchesPattern, patternEntries, objktRetractAskV3Accept,
      PATTERN_TO_PATH, getPath, hpar, htgt]
  · have hfind : findDiff ds (some 574013) "asks"
        (ActionArg.one BigmapDiffAction.remove_key) (some k) = some d := by
      have hsome : (ds.find? (fun d2 => isMatchingDiff d2 (some 574013) "asks"
          (ActionArg.one BigmapDiffAction.remove_key) (some k))).isSome := by
        rw [List.find?_isSome]
        exact ⟨d, hmem, hmatch⟩
      obtain ⟨d2, hd2⟩ := Option.isSome_iff_exists.mp hsome
      have hpred := List.find?_some hd2
      have hmem2 := List.mem_of_find?_eq_some hd2
      have hd2d : d2 = d := huniq d2 hmem2 (by simpa using hpred)
      rw [findDiff, hd2, hd2d]
    have hce : createEventId metrohash128 EVENT_TYPE_OBJKT_RETRACT_ASK_V3
        (EventIdArg.op t) 0 = Except.ok
          (metrohash128 (eventIdPreimage EVENT_TYPE_OBJKT_RETRACT_ASK_V3 hsh c nn 0)) := by
      simp [createEventId, hhash, hcounter, hnonce]
    simp only [objktRetractAskV3Exec, hdiffs, haskid, hfind, hce, hok, if_true]
    exact ⟨_, rfl, rfl, rfl⟩

/-- Witness for C8: the sample retract-ask transaction with its single
matching diff yields one event with `ask_id = 42` and a reproducible id. -/
theorem objktRetractAskV3Exec_produces_event_witness :
    ∃ e, objktRetractAskV3Exec (fun s => s) (fun _ => true) sampleRetractTx =
        Except.ok e ∧ e.ask_id = some "42" ∧
      createEventId (fun s => s) EVENT_TYPE_OBJKT_RETRACT_ASK_V3
          (EventIdArg.op sampleRetractTx) 0 = Except.ok e.id :=
  (objktRetractAskV3Exec_produces_event (fun s => s) (fun _ => true) sampleRetractTx
      "42" [sampleAskDiff] sampleAskDiff "oohash501" 33 none rfl rfl rfl
      (by simp) (by decide)
      (fun d2 hd2 _ => by simpa using hd2)
      rfl rfl rfl (fun _ => rfl)).2
